import Mathlib

set_option maxRecDepth 2048

/-!
Verification of the QuantArenaOSS per-agent portfolio book
(`src/agent_v2/langgraph_trading_agent.py`).

The embedding below translates the portfolio-mutating parts of
`LangGraphTradingAgent` into pure Lean functions:

* money is `ℚ` (the Python code uses IEEE floats; the rational embedding
  realises the same arithmetic expressions exactly);
* share amounts are `ℤ` (Python ints);
* dates are `Date` triples compared through their civil day number, which
  coincides with Python `datetime` comparison and subtraction for valid
  calendar dates;
* Python dicts (`state['holdings']`, keyed by stock code, insertion
  ordered, unique keys) are association lists with in-place replacement;
* the data provider (`get_daily_price`, `get_stock_basic_info`) and the
  LLM decision lists are parameters of the functions that consume them.
-/

namespace QuantArena

/-- Calendar date (year, month, day), as produced by parsing the
`YYYY-MM-DD` / `YYYYMMDD` strings the agent stores. -/
structure Date where
  y : ℕ
  m : ℕ
  d : ℕ
deriving Repr, DecidableEq

/-- Civil day number (days since 1970-01-01, Hinnant's algorithm).
Python `datetime` subtraction `(d2 - d1).days` equals
`d2.days - d1.days`, and `datetime` order equals the order of `days`,
for every valid calendar date. -/
def Date.days (dt : Date) : ℤ :=
  let yy := if dt.m ≤ 2 then dt.y - 1 else dt.y
  let era := yy / 400
  let yoe := yy - era * 400
  let mp := (dt.m + 9) % 12
  let doy := (153 * mp + 2) / 5 + dt.d - 1
  let doe := yoe * 365 + yoe / 4 - yoe / 100 + doy
  ((era * 146097 + doe : ℕ) : ℤ) - 719468

/-- `d1 < d2` as Python compares `datetime` objects. -/
def dateLt (d1 d2 : Date) : Prop := d1.days < d2.days

instance : DecidablePred fun p : Date × Date => dateLt p.1 p.2 :=
  fun p => inferInstanceAs (Decidable (p.1.days < p.2.days))

instance (d1 d2 : Date) : Decidable (dateLt d1 d2) :=
  inferInstanceAs (Decidable (d1.days < d2.days))

/-- Python `max(a, b)` on rationals. -/
def ratMax (a b : ℚ) : ℚ := if a < b then b else a

/-- Python `min(a, b)` on integers. -/
def intMin (a b : ℤ) : ℤ := if a ≤ b then a else b

/-- Python `abs(x)` on rationals. -/
def ratAbs (x : ℚ) : ℚ := if x < 0 then -x else x

/-- Python `int(x)` on a rational: truncation toward zero, which is
`num / den` with Lean's toward-zero integer division. -/
def pyInt (x : ℚ) : ℤ := Int.tdiv x.num (x.den : ℤ)

/-- A holding as built by `_execute_buys` (lines 1419-1433): the value of
`state['holdings'][code]`.  `cost` is the per-share cost. -/
structure Holding where
  amount : ℤ
  cost : ℚ
  currentPrice : ℚ
  profitPct : ℚ
  holdDays : ℕ
  buyDate : Date
  name : String
  profitTarget : String
  stopLoss : String
  invalidation : String
  expectedDays : ℤ
deriving Repr, DecidableEq

/-- A trade record as appended to `state['trade_history']` by
`_execute_sells` (lines 864-877) and `_execute_buys` (lines 1437-1456).
Keys present only on one side are `Option` fields; note the record has
no separate stamp-tax field. -/
structure Trade where
  date : Date
  action : String
  code : String
  name : String
  amount : ℤ
  price : ℚ
  total : ℚ
  commission : ℚ
  reason : String
  profit : Option ℚ := none
  profitPct : Option ℚ := none
  profitTarget : Option String := none
  stopLoss : Option String := none
  invalidation : Option String := none
  expectedDays : Option ℤ := none
  cashBefore : Option ℚ := none
  assetsBefore : Option ℚ := none
deriving Repr, DecidableEq

/-- One `daily_assets` entry, as appended by `_record_daily_assets`
(lines 1484-1504). -/
structure DailyAsset where
  date : Date
  totalAssets : ℚ
  cash : ℚ
  holdingsValue : ℚ
  holdingsCount : ℕ
deriving Repr, DecidableEq

/-- The portfolio slice of `TradingState` that the executable nodes
read and write. -/
structure AgentState where
  tradeDate : Date
  cash : ℚ
  initialCapital : ℚ
  holdings : List (String × Holding)
  totalAssets : ℚ
  sellTrades : List Trade
  buyTrades : List Trade
  tradeHistory : List Trade
  dailyAssets : List DailyAsset
deriving Repr, DecidableEq

/-- Dict lookup `d[k]` / `k in d` (first matching key). -/
def lookupA {β : Type} : List (String × β) → String → Option β
  | [], _ => none
  | (k, v) :: rest, c => if k = c then some v else lookupA rest c

/-- Dict deletion `del d[k]`. -/
def eraseA {β : Type} : List (String × β) → String → List (String × β)
  | [], _ => []
  | (k, v) :: rest, c =>
    if k = c then eraseA rest c else (k, v) :: eraseA rest c

/-- Dict assignment `d[k] = v`: replaces in place when the key exists,
appends otherwise (Python dicts keep insertion order). -/
def insertA {β : Type} : List (String × β) → String → β → List (String × β)
  | [], c, v => [(c, v)]
  | (k, w) :: rest, c, v =>
    if k = c then (k, v) :: rest else (k, w) :: insertA rest c v

/-- One element of `sell_analysis['decisions']` after the tolerant JSON
coercion; non-dict entries are already gone, absent keys are the Python
falsy defaults (`''`). -/
structure SellDecision where
  action : String
  code : String
  reason : String
deriving Repr, DecidableEq

/-- Loop state of the `for decision in decisions` loop of
`_execute_sells`: the account fields it mutates plus the local
`sell_trades` and `processed_codes` accumulators. -/
structure SellLoopSt where
  cash : ℚ
  holdings : List (String × Holding)
  tradeHistory : List Trade
  sellTrades : List Trade
  processed : List String
deriving Repr, DecidableEq

/-- One iteration of the `_execute_sells` loop
(`langgraph_trading_agent.py` lines 815-893). -/
def sellStep (tradeDate : Date) (names : String → String)
    (st : SellLoopSt) (dec : SellDecision) : SellLoopSt :=
  if dec.action ≠ "sell" then st
  else if dec.code = "" then st
  else if dec.code ∈ st.processed then st
  else
    -- `processed_codes.add(code)` happens before the remaining checks,
    -- so every exit from here carries the updated set.
    match lookupA st.holdings dec.code with
    | none => { st with processed := dec.code :: st.processed }
    | some h =>
      -- T+1: reject if the position was bought today (hold_days == 0)
      if h.holdDays = 0 then { st with processed := dec.code :: st.processed }
      else
        let amount := h.amount
        let price := h.currentPrice
        let sellAmount := (amount : ℚ) * price
        let commission := ratMax (sellAmount * (3 / 10000)) 5
        let stampTax := sellAmount * (1 / 1000)
        let netIncome := sellAmount - commission - stampTax
        let costTotal := (amount : ℚ) * h.cost
        let profit := netIncome - costTotal
        let profitPct := profit / costTotal * 100
        let trade : Trade :=
          { date := tradeDate
            action := "sell"
            code := dec.code
            name := names dec.code
            amount := amount
            price := price
            total := sellAmount
            commission := commission + stampTax
            reason := dec.reason
            profit := some profit
            profitPct := some profitPct }
        { cash := st.cash + netIncome
          holdings := eraseA st.holdings dec.code
          tradeHistory := st.tradeHistory ++ [trade]
          sellTrades := st.sellTrades ++ [trade]
          processed := dec.code :: st.processed }

/-- `_execute_sells` (lines 809-896): folds the decision list over the
loop step and writes back cash, holdings, trade history and the fresh
`sell_trades` list. -/
def executeSells (names : String → String) (decisions : List SellDecision)
    (s : AgentState) : AgentState :=
  let final := decisions.foldl (sellStep s.tradeDate names)
    { cash := s.cash, holdings := s.holdings, tradeHistory := s.tradeHistory
      sellTrades := [], processed := [] }
  { s with cash := final.cash, holdings := final.holdings
           tradeHistory := final.tradeHistory, sellTrades := final.sellTrades }

/-- An exit plan `{profit_target, stop_loss, invalidation}` as the LLM
returns it inside a buy decision. -/
structure ExitPlan where
  profitTarget : String
  stopLoss : String
  invalidation : String
deriving Repr, DecidableEq

/-- A raw buy decision parsed from the LLM JSON in `_analyze_candidates`
(line 1262): arbitrary dicts, so every key is optional.  Absent string
keys are `""` (falsy), absent `exit_plan` is `none`. -/
structure RawBuyDecision where
  stockCode : String
  code : String
  suggestedAmount : ℤ
  confidence : ℚ
  reason : String
  expectedDays : ℤ
  exitPlan : Option ExitPlan
deriving Repr, DecidableEq

/-- A normalized buy decision, the dict literal built at lines
1283-1290 of `_analyze_candidates`.  It is again an open dict by the
time `_execute_buys` reads it, so `exitPlan` stays an `Option`; the
normalization itself never writes the key. -/
structure BuyDecision where
  action : String
  code : String
  suggestedAmount : ℤ
  confidence : ℚ
  reason : String
  expectedDays : ℤ
  exitPlan : Option ExitPlan
deriving Repr, DecidableEq

/-- The confidence filter and field normalization of
`_analyze_candidates` (lines 1268-1291).  Note the constructed dict
carries `code, action, suggested_amount, confidence, reason,
expected_days` and nothing else: `exit_plan` is dropped. -/
def normalizeBuyDecisions (threshold : ℚ) :
    List RawBuyDecision → List BuyDecision
  | [] => []
  | d :: rest =>
    let code := if d.stockCode ≠ "" then d.stockCode else d.code
    if code = "" then normalizeBuyDecisions threshold rest
    else if d.confidence < threshold then normalizeBuyDecisions threshold rest
    else
      { action := "buy", code := code, suggestedAmount := d.suggestedAmount
        confidence := d.confidence, reason := d.reason
        expectedDays := d.expectedDays, exitPlan := none }
        :: normalizeBuyDecisions threshold rest

/-- `decision.get('exit_plan', {}).get('profit_target', '未设置')`. -/
def epProfitTarget : Option ExitPlan → String
  | some ep => ep.profitTarget
  | none => "未设置"

/-- `decision.get('exit_plan', {}).get('stop_loss', '未设置')`. -/
def epStopLoss : Option ExitPlan → String
  | some ep => ep.stopLoss
  | none => "未设置"

/-- `decision.get('exit_plan', {}).get('invalidation', '未设置')`. -/
def epInvalidation : Option ExitPlan → String
  | some ep => ep.invalidation
  | none => "未设置"

/-- Loop state of the `for decision in decisions` loop of
`_execute_buys`. `totalAssets` is read for the 40% cap but never
written inside the loop. -/
structure BuyLoopSt where
  cash : ℚ
  holdings : List (String × Holding)
  tradeHistory : List Trade
  buyTrades : List Trade
  processed : List String
deriving Repr, DecidableEq

/-- One iteration of the `_execute_buys` loop (lines 1362-1471).
`getClose` is `data_provider.get_daily_price(code, trade_date)['close']`
and `names` is `get_stock_basic_info(code)['name']`. -/
def buyStep (tradeDate : Date) (totalAssets : ℚ)
    (getClose : String → Option ℚ) (names : String → String)
    (st : BuyLoopSt) (dec : BuyDecision) : BuyLoopSt :=
  if dec.action ≠ "buy" then st
  else if dec.code = "" then st
  else if dec.code ∈ st.processed then st
  else
    -- `processed_codes.add(code)` happens before the remaining checks,
    -- so every exit from here carries the updated set.
    match getClose dec.code with
    | none => { st with processed := dec.code :: st.processed }
    | some price =>
      if price ≤ 0 then { st with processed := dec.code :: st.processed }
      else
        -- amount capped by whole lots affordable from current cash
        let maxAmount := pyInt (st.cash / price / 100) * 100
        let amount0 := intMin dec.suggestedAmount maxAmount
        let amount := (Int.fdiv amount0 100) * 100
        if amount < 100 then { st with processed := dec.code :: st.processed }
        else
          let stockCost := (amount : ℚ) * price
          let commission := ratMax (stockCost * (3 / 10000)) 5
          let totalCost := stockCost + commission
          if st.cash < totalCost then
            { st with processed := dec.code :: st.processed }
          else
            -- single-position cap: 40% of (stale) total assets
            let maxSinglePosition := totalAssets * (40 / 100)
            if maxSinglePosition < stockCost then
              { st with processed := dec.code :: st.processed }
            else
              let name := names dec.code
              let newCash := st.cash - totalCost
              let pt := epProfitTarget dec.exitPlan
              let sl := epStopLoss dec.exitPlan
              let inv := epInvalidation dec.exitPlan
              let holding : Holding :=
                { amount := amount, cost := price, currentPrice := price
                  profitPct := 0, holdDays := 0, buyDate := tradeDate
                  name := name, profitTarget := pt, stopLoss := sl
                  invalidation := inv, expectedDays := dec.expectedDays }
              let trade : Trade :=
                { date := tradeDate
                  action := "buy"
                  code := dec.code
                  name := name
                  amount := amount
                  price := price
                  total := stockCost
                  commission := commission
                  reason := dec.reason
                  profitTarget := some pt
                  stopLoss := some sl
                  invalidation := some inv
                  expectedDays := some dec.expectedDays
                  cashBefore := some (newCash + totalCost)
                  assetsBefore := some totalAssets }
              { cash := newCash
                holdings := insertA st.holdings dec.code holding
                tradeHistory := st.tradeHistory ++ [trade]
                buyTrades := st.buyTrades ++ [trade]
                processed := dec.code :: st.processed }

/-- `_execute_buys` (lines 1335-1482).  The two batch-entry gates
(holdings count, 5% cash reserve) run once before the loop; the 95%
ceiling `max_buy_cash` is computed at line 1360 but never read again. -/
def executeBuys (maxHoldings : ℕ) (getClose : String → Option ℚ)
    (names : String → String) (decisions : List BuyDecision)
    (s : AgentState) : AgentState :=
  if maxHoldings ≤ s.holdings.length then { s with buyTrades := [] }
  else if s.cash < s.initialCapital * (5 / 100) then { s with buyTrades := [] }
  else
    let _maxBuyCash := s.cash * (95 / 100)
    let final := decisions.foldl
      (buyStep s.tradeDate s.totalAssets getClose names)
      { cash := s.cash, holdings := s.holdings, tradeHistory := s.tradeHistory
        buyTrades := [], processed := [] }
    { s with cash := final.cash, holdings := final.holdings
             tradeHistory := final.tradeHistory, buyTrades := final.buyTrades }

/-- Per-holding part of `_update_holdings_prices` (lines 485-512):
refresh `current_price` and `profit_pct` from today's close when a
positive close exists, and increment `hold_days` in every branch. -/
def updateHolding (getClose : String → Option ℚ) (c : String)
    (h : Holding) : Holding :=
  match getClose c with
  | some p =>
    if 0 < p then
      if 0 < h.cost then
        { h with currentPrice := p, profitPct := (p - h.cost) / h.cost * 100
                 holdDays := h.holdDays + 1 }
      else
        { h with currentPrice := p, profitPct := 0, cost := p
                 holdDays := h.holdDays + 1 }
    else { h with holdDays := h.holdDays + 1 }
  | none => { h with holdDays := h.holdDays + 1 }

/-- Market value of the holdings, `Σ amount · current_price`. -/
def holdingsValue (hs : List (String × Holding)) : ℚ :=
  (hs.map fun ch => (ch.2.amount : ℚ) * ch.2.currentPrice).sum

/-- `_update_holdings_prices` (lines 475-525): update every holding and
recompute `total_assets = cash + holdings_value`. -/
def updatePrices (getClose : String → Option ℚ) (s : AgentState) :
    AgentState :=
  let holdings := s.holdings.map fun ch => (ch.1, updateHolding getClose ch.1 ch.2)
  { s with holdings := holdings
           totalAssets := s.cash + holdingsValue holdings }

/-- `_record_daily_assets` (lines 1484-1504). -/
def recordDaily (s : AgentState) : AgentState :=
  let hv := holdingsValue s.holdings
  let ta := s.cash + hv
  { s with totalAssets := ta
           dailyAssets := s.dailyAssets ++
             [{ date := s.tradeDate, totalAssets := ta, cash := s.cash
                holdingsValue := hv, holdingsCount := s.holdings.length }] }

/-- One trade date of the 8-node pipeline
(`update_prices → … → execute_sells → … → execute_buys → record_daily`),
with the two LLM nodes abstracted into their produced decision lists.
The node order is the graph wiring at lines 380-388. -/
def runDay (maxHoldings : ℕ) (getClose : String → Option ℚ)
    (names : String → String) (sellDecisions : List SellDecision)
    (buyDecisions : List BuyDecision) (s : AgentState) : AgentState :=
  recordDaily
    (executeBuys maxHoldings getClose names buyDecisions
      (executeSells names sellDecisions
        (updatePrices getClose s)))

/-- A holding as rebuilt by the trade-log replay inside
`rollback_to_date` (lines 2262-2287).  Unlike the live `Holding`,
`cost` here is the running total-cost pool and `price` the average
cost per share. -/
structure RbHolding where
  amount : ℤ
  cost : ℚ
  price : ℚ
  currentPrice : ℚ
deriving Repr, DecidableEq

/-- Market value `Σ amount · current_price` of rebuilt holdings
(lines 2300-2303; `current_price` is always present after replay). -/
def rbHoldingsValue (hs : List (String × RbHolding)) : ℚ :=
  (hs.map fun ch => (ch.2.amount : ℚ) * ch.2.currentPrice).sum

/-- One step of the chronological replay in `rollback_to_date`
(lines 2253-2287): buys merge into the `cost` pool, sells reduce the
amount (deleting at 0) and scale the pool down proportionally. -/
def rbApplyTrade (hs : List (String × RbHolding)) (t : Trade) :
    List (String × RbHolding) :=
  if t.code = "" then hs
  else if t.action = "buy" then
    match lookupA hs t.code with
    | some h =>
      let newAmount := h.amount + t.amount
      let newCost := h.cost + (t.amount : ℚ) * t.price
      insertA hs t.code
        { h with amount := newAmount, cost := newCost
                 price := if 0 < newAmount then newCost / (newAmount : ℚ)
                          else t.price }
    | none =>
      insertA hs t.code
        { amount := t.amount, cost := (t.amount : ℚ) * t.price
          price := t.price, currentPrice := t.price }
  else if t.action = "sell" then
    match lookupA hs t.code with
    | some h =>
      let newAmount := h.amount - t.amount
      if newAmount ≤ 0 then eraseA hs t.code
      else
        insertA hs t.code
          { h with amount := newAmount
                   cost := h.cost *
                     (1 - (t.amount : ℚ) / ((newAmount : ℚ) + (t.amount : ℚ))) }
    | none => hs
  else hs

/-- Insert a trade after all trades with a date not later than it, the
stable placement `sorted(..., key=date)` gives equal keys. -/
def insertTradeByDate (t : Trade) : List Trade → List Trade
  | [] => [t]
  | u :: us =>
    if t.date.days < u.date.days then t :: u :: us
    else u :: insertTradeByDate t us

/-- Stable sort by trade date (line 2248: `sorted(self.trade_history,
key=...)`; Python `sorted` is stable, and comparing the normalized
`YYYY-MM-DD` strings is comparing day numbers). -/
def sortTradesByDate (ts : List Trade) : List Trade :=
  ts.foldl (fun acc t => insertTradeByDate t acc) []

/-- Replay a trade list into holdings, `for trade in sorted_trades`. -/
def replayTrades (ts : List Trade) : List (String × RbHolding) :=
  ts.foldl rbApplyTrade []

/-- The persistent slice of the agent used by `detect_data_corruption`
and `rollback_to_date` (the attributes `initial_capital / cash /
total_assets / holdings / trade_history / daily_assets`), with the
holdings in the rebuilt shape they have during recovery. -/
structure Portfolio where
  initialCapital : ℚ
  cash : ℚ
  totalAssets : ℚ
  holdings : List (String × RbHolding)
  tradeHistory : List Trade
  dailyAssets : List DailyAsset
deriving Repr, DecidableEq

/-- `rollback_to_date` (lines 2178-2325) for a parseable target date:
keep daily assets and trades strictly before `T`, rebuild holdings by
replaying the surviving trades in date order, take `total_assets` and
`cash` from the last surviving daily entry, then override `cash` with
`total_assets - holdings_value` when that is nonnegative.
`entry.get('total_assets') or entry.get('assets', initial_capital)`
falls back to `initial_capital` exactly when the stored value is the
falsy `0`, because `record_daily` never writes an `assets` key; and
`self._update_holdings_current_prices(last_date)` is not defined
anywhere in the repository, so that call raises `AttributeError` and
the surrounding `except` keeps the replay prices unchanged. -/
def rollbackToDate (T : Date) (p : Portfolio) : Portfolio :=
  let filteredAssets := p.dailyAssets.filter fun e => e.date.days < T.days
  let survivingTrades := p.tradeHistory.filter fun t => t.date.days < T.days
  match filteredAssets.getLast? with
  | some last =>
    let ta := if last.totalAssets = 0 then p.initialCapital else last.totalAssets
    let holdings := replayTrades (sortTradesByDate survivingTrades)
    let hv := rbHoldingsValue holdings
    let expectedCash := ta - hv
    let cash := if 0 ≤ expectedCash then expectedCash else last.cash
    { p with dailyAssets := filteredAssets, tradeHistory := survivingTrades
             holdings := holdings, totalAssets := ta, cash := cash }
  | none =>
    { p with dailyAssets := [], tradeHistory := survivingTrades
             holdings := [], cash := p.initialCapital
             totalAssets := p.initialCapital }

/-- The asset-change test of `detect_data_corruption`
(lines 2000-2024), evaluated for one entry against the previous one:
a gap of more than 3 calendar days is itself corruption; a 1-day gap
flags a change below −12% or above +30%; a 2-day or 3-day gap flags
`|change| > gap_days · 10`. -/
def assetChangeFlag (pa : ℚ) (daysDiff : ℤ) (ta : ℚ) : Bool :=
  if 0 < pa then
    let changePct := (ta - pa) / pa * 100
    if 3 < daysDiff then true
    else if daysDiff = 1 then
      decide (changePct < -12) || decide (30 < changePct)
    else if 1 < daysDiff then decide ((daysDiff : ℚ) * 10 < ratAbs changePct)
    else false
  else false

/-- All per-entry checks of the `detect_data_corruption` scan
(lines 1951-2032) that can fire for a well-formed entry, in source
order: date going backwards, falsy (`0`) asset value falling through
the `or` chain to the missing-field branch, negative assets, the
asset-change test, negative cash.  Every one reports the current
entry's date. -/
def entryCorrupt (prev : Option (Date × ℚ)) (e : DailyAsset) : Bool :=
  (match prev with
   | some pv => decide (e.date.days < pv.1.days)
   | none => false) ||
  decide (e.totalAssets = 0) ||
  decide (e.totalAssets < 0) ||
  (match prev with
   | some pv => assetChangeFlag pv.2 (e.date.days - pv.1.days) e.totalAssets
   | none => false) ||
  decide (e.cash < 0)

/-- The `for idx, entry in enumerate(self.daily_assets)` scan, carrying
`prev_date` and `self._prev_assets`. -/
def detectLoop (prev : Option (Date × ℚ)) : List DailyAsset → Option Date
  | [] => none
  | e :: es =>
    if entryCorrupt prev e then some e.date
    else detectLoop (some (e.date, e.totalAssets)) es

/-- Check 2 of `detect_data_corruption` (lines 2034-2051): the declared
last total must be within 5% of `cash + Σ amount·current_price`
whenever the latter exceeds 100. -/
def lastEntryInconsistent (p : Portfolio) : Bool :=
  match p.dailyAssets.getLast? with
  | none => false
  | some last =>
    let hv := rbHoldingsValue p.holdings
    let expected := p.cash + hv
    decide (expected * (5 / 100) < ratAbs (last.totalAssets - expected)) &&
      decide (100 < expected)

/-- Check 3 of `detect_data_corruption` (lines 2053-2087): the first
trade whose date has no `daily_assets` entry. -/
def firstOrphanTradeDate (dailyDates : List Date) : List Trade → Option Date
  | [] => none
  | t :: ts =>
    if t.date ∈ dailyDates then firstOrphanTradeDate dailyDates ts
    else some t.date

/-- `detect_data_corruption` (lines 1931-2096): the three check groups
in order, returning `(is_corrupted, first_corrupted_date)`. -/
def detectDataCorruption (p : Portfolio) : Bool × Option Date :=
  if p.dailyAssets = [] then (false, none)
  else
    match detectLoop none p.dailyAssets with
    | some d => (true, some d)
    | none =>
      if lastEntryInconsistent p then
        (true, (p.dailyAssets.getLast?).map fun e => e.date)
      else
        match firstOrphanTradeDate (p.dailyAssets.map fun e => e.date)
            p.tradeHistory with
        | some d => (true, some d)
        | none => (false, none)

/-- Contents of one mutable holding dict for the reference-level model
of `run_single_day`'s snapshot/restore. -/
structure HHolding where
  amount : ℤ
  cost : ℚ
  currentPrice : ℚ
  profitPct : ℚ
  holdDays : ℕ
deriving Repr, DecidableEq

/-- The agent's attributes with Python aliasing made explicit: holding
dicts are objects on a heap (indexed by address) and
`self.holdings` maps codes to addresses.  `dict(self.holdings)` copies
only the code-to-address entries, never the objects. -/
structure AgentMem where
  heap : List HHolding
  holdingsMap : List (String × ℕ)
  cash : ℚ
  totalAssets : ℚ
  tradeHistory : List Trade
  dailyAssets : List DailyAsset
deriving Repr, DecidableEq

/-- Write through a reference: update the object at `addr`. -/
def heapUpdate : List HHolding → ℕ → (HHolding → HHolding) → List HHolding
  | [], _, _ => []
  | h :: rest, 0, f => f h :: rest
  | h :: rest, n + 1, f => h :: heapUpdate rest n f

/-- Read through a reference. -/
def heapGet : List HHolding → ℕ → Option HHolding
  | [], _ => none
  | h :: _, 0 => some h
  | _ :: rest, n + 1 => heapGet rest n

/-- The in-place field assignments of `_update_holdings_prices` on one
holding object (lines 485-503). -/
def updateHHolding (getClose : String → Option ℚ) (c : String)
    (h : HHolding) : HHolding :=
  match getClose c with
  | some p =>
    if 0 < p then
      if 0 < h.cost then
        { h with currentPrice := p, profitPct := (p - h.cost) / h.cost * 100
                 holdDays := h.holdDays + 1 }
      else
        { h with currentPrice := p, profitPct := 0, cost := p
                 holdDays := h.holdDays + 1 }
    else { h with holdDays := h.holdDays + 1 }
  | none => { h with holdDays := h.holdDays + 1 }

/-- `_update_holdings_prices` at the reference level: it mutates the
holding objects through the shared references, so the writes are heap
writes. -/
def updatePricesHeap (getClose : String → Option ℚ) (m : AgentMem) :
    AgentMem :=
  let heap := m.holdingsMap.foldl
    (fun hp ca => heapUpdate hp ca.2 (updateHHolding getClose ca.1)) m.heap
  let hv := (m.holdingsMap.map fun ca =>
    match heapGet heap ca.2 with
    | some h => (h.amount : ℚ) * h.currentPrice
    | none => 0).sum
  { m with heap := heap, totalAssets := m.cash + hv }

/-- The `pre_state` snapshot of `run_single_day` (lines 1710-1716):
`dict(self.holdings)` and `list(...)` copy the container spines only;
no holding object is copied. -/
structure PreSnapshot where
  cash : ℚ
  holdingsMap : List (String × ℕ)
  totalAssets : ℚ
  tradeHistory : List Trade
  dailyAssets : List DailyAsset
deriving Repr, DecidableEq

/-- Take the `pre_state` snapshot. -/
def snapshotPre (m : AgentMem) : PreSnapshot :=
  { cash := m.cash, holdingsMap := m.holdingsMap
    totalAssets := m.totalAssets, tradeHistory := m.tradeHistory
    dailyAssets := m.dailyAssets }

/-- The `except` branch of `run_single_day` (lines 1748-1752): assign
the five snapshotted attributes back.  Nothing writes any holding
object's fields, so the heap keeps whatever the failed day wrote. -/
def restorePre (pre : PreSnapshot) (m : AgentMem) : AgentMem :=
  { heap := m.heap
    holdingsMap := pre.holdingsMap
    cash := pre.cash
    totalAssets := pre.totalAssets
    tradeHistory := pre.tradeHistory
    dailyAssets := pre.dailyAssets }

/-- `run_single_day` on a day where node 1 (`update_prices`) runs and a
later node raises: snapshot, run node 1, restore the snapshot. -/
def runSingleDayCrashAfterUpdate (getClose : String → Option ℚ)
    (m : AgentMem) : AgentMem :=
  let pre := snapshotPre m
  restorePre pre (updatePricesHeap getClose m)

/-! ### Concrete fixtures for the evaluated instances -/

/-- Stock-name lookup used by the concrete evaluations. -/
def fixNames : String → String := fun _ => "平安银行"

/-- Close-price table: both sample codes close at 10. -/
def fixClose : String → Option ℚ :=
  fun c => if c = "000001.SZ" then some 10
           else if c = "600000.SH" then some 10 else none

/-- A holding bought the previous day: 200 shares at cost 10, close 11. -/
def fixHolding : Holding :=
  { amount := 200, cost := 10, currentPrice := 11, profitPct := 10
    holdDays := 1, buyDate := ⟨2025, 1, 6⟩, name := "平安银行"
    profitTarget := "未设置", stopLoss := "未设置", invalidation := "未设置"
    expectedDays := 5 }

def fixSellLoop : SellLoopSt :=
  { cash := 7995, holdings := [("000001.SZ", fixHolding)]
    tradeHistory := [], sellTrades := [], processed := [] }

def fixSellDec : SellDecision :=
  { action := "sell", code := "000001.SZ", reason := "止盈" }

/-- The same position but bought today (`hold_days = 0`). -/
def fixHoldingT0 : Holding :=
  { fixHolding with holdDays := 0, buyDate := ⟨2025, 1, 7⟩ }

def fixSellLoopT0 : SellLoopSt :=
  { fixSellLoop with holdings := [("000001.SZ", fixHoldingT0)] }

def fixBuyState : AgentState :=
  { tradeDate := ⟨2025, 1, 6⟩, cash := 10000, initialCapital := 10000
    holdings := [], totalAssets := 10000, sellTrades := [], buyTrades := []
    tradeHistory := [], dailyAssets := [] }

def fixBuyDecA : BuyDecision :=
  { action := "buy", code := "000001.SZ", suggestedAmount := 200
    confidence := 8 / 10, reason := "看多", expectedDays := 5, exitPlan := none }

def fixBuyDecB : BuyDecision :=
  { fixBuyDecA with code := "600000.SH", suggestedAmount := 100 }

/-- Close-price table for the merge scenario: the held code closes at 20. -/
def fixClose20 : String → Option ℚ :=
  fun c => if c = "000001.SZ" then some 20 else none

/-- The buy trade that established the existing lot
(100 shares at 10 on 2025-01-02). -/
def fixOldBuyTrade : Trade :=
  { date := ⟨2025, 1, 2⟩, action := "buy", code := "000001.SZ"
    name := "平安银行", amount := 100, price := 10, total := 1000
    commission := 5, reason := "建仓", profitTarget := some "未设置"
    stopLoss := some "未设置", invalidation := some "未设置"
    expectedDays := some 5, cashBefore := some 10000
    assetsBefore := some 10000 }

def fixOldHolding : Holding :=
  { fixHolding with amount := 100, cost := 10, currentPrice := 10
                    buyDate := ⟨2025, 1, 2⟩ }

def fixMergeState : AgentState :=
  { tradeDate := ⟨2025, 1, 6⟩, cash := 10000, initialCapital := 10000
    holdings := [("000001.SZ", fixOldHolding)], totalAssets := 11000
    sellTrades := [], buyTrades := [], tradeHistory := [fixOldBuyTrade]
    dailyAssets := [] }

def fixMergeDec : BuyDecision := { fixBuyDecA with suggestedAmount := 100 }

/-- A raw LLM buy decision that carries a full exit plan. -/
def fixRawDec : RawBuyDecision :=
  { stockCode := "000001.SZ", code := "", suggestedAmount := 200
    confidence := 8 / 10, reason := "突破", expectedDays := 5
    exitPlan := some { profitTarget := "11.0", stopLoss := "9.5"
                       invalidation := "跌破9.5" } }

/-- A second position (100 shares at price 6) used to inflate total
assets in the negative-cash scenario. -/
def fixOtherHolding : Holding :=
  { fixHolding with amount := 100, cost := 6, currentPrice := 6
                    buyDate := ⟨2025, 1, 2⟩ }

/-- cash 405, another holding worth 600: exactly affords a 100-share
buy at 4.00 (total cost 405 with the 5-yuan minimum commission). -/
def fixTightState : AgentState :=
  { tradeDate := ⟨2025, 1, 6⟩, cash := 405, initialCapital := 1005
    holdings := [("600000.SH", fixOtherHolding)], totalAssets := 1005
    sellTrades := [], buyTrades := [], tradeHistory := [], dailyAssets := [] }

def fixClose4 : String → Option ℚ :=
  fun c => if c = "000001.SZ" then some 4 else none

/-- Next-day close: the bought stock collapses to 0.04. -/
def fixCloseCrash : String → Option ℚ :=
  fun c => if c = "000001.SZ" then some (1 / 25) else none

def fixBuyDec100 : BuyDecision := { fixBuyDecA with suggestedAmount := 100 }

/-- Buy on day one with every gate passing, crash and sell on day two:
a concrete two-day run of the pipeline nodes. -/
def fixNegCashRun : AgentState :=
  executeSells fixNames [fixSellDec]
    (updatePrices fixCloseCrash
      { executeBuys 5 fixClose4 fixNames [fixBuyDec100] fixTightState with
          tradeDate := ⟨2025, 1, 7⟩ })

def fixHeapHolding : HHolding :=
  { amount := 100, cost := 9, currentPrice := 9, profitPct := 0, holdDays := 3 }

def fixMem : AgentMem :=
  { heap := [fixHeapHolding], holdingsMap := [("000001.SZ", 0)]
    cash := 500, totalAssets := 1400, tradeHistory := [], dailyAssets := [] }

def fixClose10Only : String → Option ℚ :=
  fun c => if c = "000001.SZ" then some 10 else none

def mkDaily (d : Date) (a c : ℚ) : DailyAsset :=
  { date := d, totalAssets := a, cash := c, holdingsValue := 0
    holdingsCount := 0 }

/-- A portfolio whose live account is empty, so only the daily-assets
scan of `detect_data_corruption` can fire. -/
def mkScanP (es : List DailyAsset) : Portfolio :=
  { initialCapital := 10000, cash := 0, totalAssets := 0, holdings := []
    tradeHistory := [], dailyAssets := es }

def fixDailyJan3 : DailyAsset := mkDaily ⟨2025, 1, 3⟩ 10000 10000

def fixRollbackP : Portfolio :=
  { initialCapital := 10000, cash := 123, totalAssets := 999
    holdings := [], tradeHistory := [fixOldBuyTrade]
    dailyAssets := [fixDailyJan3] }

def fixRollbackT : Date := ⟨2025, 1, 4⟩

/-- The per-trade facts every executed buy record satisfies, relative
to the `total_assets` the batch started with: lot-rounded amount, the
commission formula, affordability against the recorded pre-buy cash,
and the 40% single-position cap against the recorded pre-buy assets. -/
def BuyTradeOk (ta : ℚ) (t : Trade) : Prop :=
  t.action = "buy" ∧ 100 ≤ t.amount ∧ (100 : ℤ) ∣ t.amount ∧
  t.commission = ratMax (t.total * (3 / 10000)) 5 ∧
  (∃ cb, t.cashBefore = some cb ∧ t.total + t.commission ≤ cb) ∧
  t.assetsBefore = some ta ∧ t.total ≤ ta * (40 / 100)

/-! ### Helper lemmas about the dict operations -/

theorem ratMax_eq_max (a b : ℚ) : ratMax a b = max a b := by
  unfold ratMax
  rcases lt_or_le a b with h | h
  · rw [if_pos h, max_eq_right (le_of_lt h)]
  · rw [if_neg (not_lt.mpr h), max_eq_left h]

theorem lookupA_eraseA_eq {β : Type} (l : List (String × β)) (c c' : String) :
    lookupA (eraseA l c) c' = if c' = c then none else lookupA l c' := by
  induction l with
  | nil => simp [eraseA, lookupA]
  | cons kv rest ih =>
    obtain ⟨k, w⟩ := kv
    by_cases hk : k = c
    · subst hk
      by_cases h2 : c' = k
      · subst h2; simp [eraseA, lookupA, ih]
      · have h3 : ¬k = c' := fun h => h2 h.symm
        simp [eraseA, lookupA, ih, h2, h3]
    · by_cases h2 : k = c'
      · subst h2
        simp [eraseA, lookupA, hk]
      · simp [eraseA, lookupA, hk, h2, ih]

theorem lookupA_eraseA {β : Type} {l : List (String × β)} {c c' : String}
    {v : β} (h : lookupA (eraseA l c) c' = some v) : lookupA l c' = some v := by
  rw [lookupA_eraseA_eq] at h
  by_cases hc : c' = c
  · simp [hc] at h
  · simpa [hc] using h

theorem lookupA_map_update (f : String → Holding → Holding)
    (l : List (String × Holding)) (c : String) :
    lookupA (l.map fun ch => (ch.1, f ch.1 ch.2)) c =
      (lookupA l c).map (f c) := by
  induction l with
  | nil => simp [lookupA]
  | cons kv rest ih =>
    obtain ⟨k, w⟩ := kv
    by_cases hk : k = c
    · subst hk; simp [lookupA]
    · simp [lookupA, hk, ih]

/-- `update_prices` never touches `buy_date`. -/
theorem updateHolding_buyDate (getClose : String → Option ℚ) (c : String)
    (h : Holding) : (updateHolding getClose c h).buyDate = h.buyDate := by
  unfold updateHolding
  split
  · split
    · split <;> rfl
    · rfl
  · rfl

/-- Case analysis on one `_execute_sells` iteration: either the decision
is dropped and the account fields are untouched, or a holding with
`hold_days ≠ 0` is sold in full, erased, and one sell trade for today
is appended. -/
theorem sellStep_spec (D : Date) (nms : String → String) (st : SellLoopSt)
    (dec : SellDecision) :
    ((sellStep D nms st dec).cash = st.cash ∧
     (sellStep D nms st dec).holdings = st.holdings ∧
     (sellStep D nms st dec).tradeHistory = st.tradeHistory ∧
     (sellStep D nms st dec).sellTrades = st.sellTrades) ∨
    (∃ h t, lookupA st.holdings dec.code = some h ∧ h.holdDays ≠ 0 ∧
      t.date = D ∧ t.code = dec.code ∧
      (sellStep D nms st dec).cash = st.cash +
        ((h.amount : ℚ) * h.currentPrice -
          ratMax ((h.amount : ℚ) * h.currentPrice * (3 / 10000)) 5 -
          (h.amount : ℚ) * h.currentPrice * (1 / 1000)) ∧
      (sellStep D nms st dec).holdings = eraseA st.holdings dec.code ∧
      (sellStep D nms st dec).sellTrades = st.sellTrades ++ [t]) := by
  unfold sellStep
  split
  · exact Or.inl ⟨rfl, rfl, rfl, rfl⟩
  split
  · exact Or.inl ⟨rfl, rfl, rfl, rfl⟩
  split
  · exact Or.inl ⟨rfl, rfl, rfl, rfl⟩
  split
  · exact Or.inl ⟨rfl, rfl, rfl, rfl⟩
  rename_i h heq
  split
  · exact Or.inl ⟨rfl, rfl, rfl, rfl⟩
  rename_i hdays
  exact Or.inr ⟨h, _, heq, hdays, rfl, rfl, rfl, rfl, rfl⟩

/-- Every trade the `_execute_sells` loop accumulates is dated with the
trade date and sells a position that was already in the holdings the
loop started from. -/
theorem sellLoop_trades_from (D : Date) (nms : String → String)
    (hs0 : List (String × Holding)) (decs : List SellDecision) :
    ∀ st : SellLoopSt,
      (∀ c h, lookupA st.holdings c = some h → lookupA hs0 c = some h) →
      (∀ t ∈ st.sellTrades, t.date = D ∧ ∃ h, lookupA hs0 t.code = some h) →
      ∀ t ∈ (decs.foldl (sellStep D nms) st).sellTrades,
        t.date = D ∧ ∃ h, lookupA hs0 t.code = some h := by
  induction decs with
  | nil => intro st _ htr; exact htr
  | cons d rest ih =>
    intro st hsub htr
    rw [List.foldl_cons]
    rcases sellStep_spec D nms st d with
      ⟨_, hh, _, hs⟩ | ⟨h, t, hl, _, htd, htc, _, hh, hs⟩
    · refine ih _ ?_ ?_
      · rw [hh]; exact hsub
      · rw [hs]; exact htr
    · refine ih _ ?_ ?_
      · rw [hh]
        intro c h2 hlk
        exact hsub c h2 (lookupA_eraseA hlk)
      · rw [hs]
        intro u hu
        rcases List.mem_append.mp hu with hu | hu
        · exact htr u hu
        · rcases List.mem_singleton.mp hu with rfl
          exact ⟨htd, h, htc ▸ hsub d.code h hl⟩

/-- `_execute_buys` never touches `sell_trades`. -/
theorem executeBuys_sellTrades (mh : ℕ) (gc : String → Option ℚ)
    (nms : String → String) (decs : List BuyDecision) (s : AgentState) :
    (executeBuys mh gc nms decs s).sellTrades = s.sellTrades := by
  unfold executeBuys
  split
  · rfl
  · split
    · rfl
    · rfl

/-- `_record_daily_assets` never touches `sell_trades`. -/
theorem recordDaily_sellTrades (s : AgentState) :
    (recordDaily s).sellTrades = s.sellTrades := rfl

/-- C1: a sell decision whose holding has `hold_days = 0` is rejected
with no trade appended and no change to cash or holdings; and over a
whole pipeline day, every sell trade is dated with the trade date and
liquidates a lot whose establishing buy happened on an earlier date
(sells run before buys, so no lot bought today can be sold today). -/
theorem c1_t_plus_one :
    (∀ (D : Date) (nms : String → String) (st : SellLoopSt)
       (dec : SellDecision) (h : Holding),
       lookupA st.holdings dec.code = some h → h.holdDays = 0 →
       (sellStep D nms st dec).cash = st.cash ∧
       (sellStep D nms st dec).holdings = st.holdings ∧
       (sellStep D nms st dec).tradeHistory = st.tradeHistory ∧
       (sellStep D nms st dec).sellTrades = st.sellTrades) ∧
    (∀ (mh : ℕ) (gc : String → Option ℚ) (nms : String → String)
       (sd : List SellDecision) (bd : List BuyDecision) (s : AgentState),
       (∀ c h, lookupA s.holdings c = some h → h.buyDate ≠ s.tradeDate) →
       ∀ t ∈ (runDay mh gc nms sd bd s).sellTrades,
         t.date = s.tradeDate ∧
         ∃ h, lookupA s.holdings t.code = some h ∧ h.buyDate ≠ s.tradeDate) := by
  constructor
  · intro D nms st dec h hl hd
    rcases sellStep_spec D nms st dec with
      ⟨hc, hh, hth, hs⟩ | ⟨h2, t, hl2, hd2, _⟩
    · exact ⟨hc, hh, hth, hs⟩
    · rw [hl] at hl2
      exact absurd (Option.some.inj hl2 ▸ hd) hd2
  · intro mh gc nms sd bd s hbd t ht
    unfold runDay at ht
    rw [recordDaily_sellTrades, executeBuys_sellTrades] at ht
    have hfrom := sellLoop_trades_from s.tradeDate nms
      (updatePrices gc s).holdings sd
      { cash := (updatePrices gc s).cash
        holdings := (updatePrices gc s).holdings
        tradeHistory := (updatePrices gc s).tradeHistory
        sellTrades := [], processed := [] }
      (fun _ _ hx => hx) (by intro u hu; cases hu)
    have hres := hfrom t ht
    refine ⟨hres.1, ?_⟩
    rcases hres.2 with ⟨h1, hlk⟩
    have hmap : lookupA (updatePrices gc s).holdings t.code =
        (lookupA s.holdings t.code).map (updateHolding gc t.code) := by
      unfold updatePrices
      exact lookupA_map_update (updateHolding gc) s.holdings t.code
    rw [hmap] at hlk
    rcases hx : lookupA s.holdings t.code with _ | h0
    · rw [hx] at hlk; cases hlk
    · exact ⟨h0, rfl, hbd t.code h0 hx⟩


/-- C2: an executed sell of `a` shares at close `p` with average cost
`c` yields `total = a·p`, `commission = max(total·0.0003, 5)`,
`stamp_tax = total·0.001`, `net_income = total − commission −
stamp_tax`; cash grows by exactly `net_income`, the recorded profit is
`net_income − c·a` and the recorded `profit_pct` is that profit over
`c·a`, times 100. -/
theorem c2_sell_fee_arithmetic :
    ∀ (D : Date) (nms : String → String) (st : SellLoopSt)
      (dec : SellDecision) (h : Holding),
      dec.action = "sell" → dec.code ≠ "" → dec.code ∉ st.processed →
      lookupA st.holdings dec.code = some h → h.holdDays ≠ 0 →
      ∃ t : Trade,
        (sellStep D nms st dec).sellTrades = st.sellTrades ++ [t] ∧
        t.total = (h.amount : ℚ) * h.currentPrice ∧
        (sellStep D nms st dec).cash = st.cash +
          ((h.amount : ℚ) * h.currentPrice -
            ratMax ((h.amount : ℚ) * h.currentPrice * (3 / 10000)) 5 -
            (h.amount : ℚ) * h.currentPrice * (1 / 1000)) ∧
        t.profit = some
          (((h.amount : ℚ) * h.currentPrice -
              ratMax ((h.amount : ℚ) * h.currentPrice * (3 / 10000)) 5 -
              (h.amount : ℚ) * h.currentPrice * (1 / 1000)) -
            h.cost * (h.amount : ℚ)) ∧
        t.profitPct = some
          ((((h.amount : ℚ) * h.currentPrice -
               ratMax ((h.amount : ℚ) * h.currentPrice * (3 / 10000)) 5 -
               (h.amount : ℚ) * h.currentPrice * (1 / 1000)) -
             h.cost * (h.amount : ℚ)) / (h.cost * (h.amount : ℚ)) * 100) := by
  intro D nms st dec h ha hc hp hl hd
  unfold sellStep
  rw [if_neg (by simp [ha]), if_neg hc, if_neg hp, hl]
  dsimp only
  rw [if_neg hd]
  refine ⟨_, rfl, rfl, ?_, ?_, ?_⟩
  · exact congrArg st.cash.add (by ring)
  · exact congrArg some (by ring)
  · exact congrArg some (by ring)


/-- C10: the `commission` field of an executed sell trade stores the
broker commission and the stamp tax combined,
`max(total·0.0003, 5) + total·0.001`.  (The `Trade` record, like the
source dict, has no separate stamp-tax field.) -/
theorem c10_sell_commission_includes_stamp :
    ∀ (D : Date) (nms : String → String) (st : SellLoopSt)
      (dec : SellDecision) (h : Holding),
      dec.action = "sell" → dec.code ≠ "" → dec.code ∉ st.processed →
      lookupA st.holdings dec.code = some h → h.holdDays ≠ 0 →
      ∃ t : Trade,
        (sellStep D nms st dec).sellTrades = st.sellTrades ++ [t] ∧
        t.total = (h.amount : ℚ) * h.currentPrice ∧
        t.commission = ratMax (t.total * (3 / 10000)) 5 + t.total * (1 / 1000) := by
  intro D nms st dec h ha hc hp hl hd
  unfold sellStep
  rw [if_neg (by simp [ha]), if_neg hc, if_neg hp, hl]
  dsimp only
  rw [if_neg hd]
  exact ⟨_, rfl, rfl, rfl⟩


/-- Case analysis on one `_execute_buys` iteration: either a gate drops
the decision and the account fields are untouched, or the buy executes
and the appended trade satisfies `BuyTradeOk` with the cash reduced by
the affordable total cost. -/
theorem buyStep_spec (D : Date) (ta : ℚ) (gc : String → Option ℚ)
    (nms : String → String) (st : BuyLoopSt) (dec : BuyDecision) :
    ((buyStep D ta gc nms st dec).cash = st.cash ∧
     (buyStep D ta gc nms st dec).holdings = st.holdings ∧
     (buyStep D ta gc nms st dec).tradeHistory = st.tradeHistory ∧
     (buyStep D ta gc nms st dec).buyTrades = st.buyTrades) ∨
    (∃ t : Trade, BuyTradeOk ta t ∧
      t.total + t.commission ≤ st.cash ∧
      (buyStep D ta gc nms st dec).cash = st.cash - (t.total + t.commission) ∧
      (buyStep D ta gc nms st dec).buyTrades = st.buyTrades ++ [t]) := by
  unfold buyStep
  split
  · exact Or.inl ⟨rfl, rfl, rfl, rfl⟩
  split
  · exact Or.inl ⟨rfl, rfl, rfl, rfl⟩
  split
  · exact Or.inl ⟨rfl, rfl, rfl, rfl⟩
  split
  · exact Or.inl ⟨rfl, rfl, rfl, rfl⟩
  split
  · exact Or.inl ⟨rfl, rfl, rfl, rfl⟩
  dsimp only
  split
  · exact Or.inl ⟨rfl, rfl, rfl, rfl⟩
  rename_i hamt
  split
  · exact Or.inl ⟨rfl, rfl, rfl, rfl⟩
  rename_i hcash
  split
  · exact Or.inl ⟨rfl, rfl, rfl, rfl⟩
  rename_i hpos
  refine Or.inr ⟨_,
    ⟨rfl, Int.not_lt.mp hamt, dvd_mul_left 100 _, rfl,
      ⟨st.cash, congrArg some (by ring), not_lt.mp hcash⟩, rfl,
      not_lt.mp hpos⟩,
    not_lt.mp hcash, rfl, rfl⟩

/-- Every buy trade the `_execute_buys` loop accumulates satisfies
`BuyTradeOk` relative to the batch's `total_assets`. -/
theorem buyLoop_trades_ok (D : Date) (ta : ℚ) (gc : String → Option ℚ)
    (nms : String → String) (decs : List BuyDecision) :
    ∀ st : BuyLoopSt, (∀ t ∈ st.buyTrades, BuyTradeOk ta t) →
      ∀ t ∈ (decs.foldl (buyStep D ta gc nms) st).buyTrades, BuyTradeOk ta t := by
  induction decs with
  | nil => intro st h; exact h
  | cons d rest ih =>
    intro st h
    rw [List.foldl_cons]
    refine ih _ ?_
    rcases buyStep_spec D ta gc nms st d with ⟨_, _, _, hb⟩ | ⟨t, hok, _, _, hb⟩
    · rw [hb]; exact h
    · rw [hb]
      intro u hu
      rcases List.mem_append.mp hu with hu | hu
      · exact h u hu
      · rcases List.mem_singleton.mp hu with rfl
        exact hok

/-- The `_execute_buys` loop keeps cash nonnegative: each executed buy
costs at most the cash at hand. -/
theorem buyLoop_cash_nonneg (D : Date) (ta : ℚ) (gc : String → Option ℚ)
    (nms : String → String) (decs : List BuyDecision) :
    ∀ st : BuyLoopSt, 0 ≤ st.cash →
      0 ≤ (decs.foldl (buyStep D ta gc nms) st).cash := by
  induction decs with
  | nil => intro st h; exact h
  | cons d rest ih =>
    intro st h
    rw [List.foldl_cons]
    refine ih _ ?_
    rcases buyStep_spec D ta gc nms st d with ⟨hc, _⟩ | ⟨t, _, hle, hc, _⟩
    · rw [hc]; exact h
    · rw [hc]; linarith

/-- The `_execute_sells` loop keeps cash nonnegative as long as every
holding is worth at least the fee floor (net income nonnegative). -/
theorem sellLoop_cash_nonneg (D : Date) (nms : String → String)
    (decs : List SellDecision) :
    ∀ st : SellLoopSt, 0 ≤ st.cash →
      (∀ c h, lookupA st.holdings c = some h →
        5 ≤ (h.amount : ℚ) * h.currentPrice * (999 / 1000)) →
      0 ≤ (decs.foldl (sellStep D nms) st).cash := by
  induction decs with
  | nil => intro st h _; exact h
  | cons d rest ih =>
    intro st h hh
    rw [List.foldl_cons]
    rcases sellStep_spec D nms st d with
      ⟨hc, hhold, _, _⟩ | ⟨hold, t, hl, _, _, _, hc, hhold, _⟩
    · refine ih _ ?_ ?_
      · rw [hc]; exact h
      · rw [hhold]; exact hh
    · refine ih _ ?_ ?_
      · rw [hc]
        have h5 := hh d.code hold hl
        have hnet : 0 ≤ (hold.amount : ℚ) * hold.currentPrice -
            ratMax ((hold.amount : ℚ) * hold.currentPrice * (3 / 10000)) 5 -
            (hold.amount : ℚ) * hold.currentPrice * (1 / 1000) := by
          rw [ratMax_eq_max]
          rcases le_total ((hold.amount : ℚ) * hold.currentPrice * (3 / 10000)) 5
            with hm | hm
          · rw [max_eq_right hm]; linarith
          · rw [max_eq_left hm]; linarith
        linarith
      · rw [hhold]
        intro c h2 hlk
        exact hh c h2 (lookupA_eraseA hlk)

/-- C4 (amended): the holdings-count and cash-reserve gates are
evaluated once when `_execute_buys` starts, for the whole batch; the
95%-of-cash ceiling is computed but never applied; every executed buy
satisfies the per-decision gates (lot amount of at least 100, total
cost within the cash recorded at that moment, stock cost within 40% of
the batch's total assets), and a decision dropped by a gate (no trade
appended) changes neither cash, holdings nor trade history. -/
theorem c4_buy_risk_gates :
    ∀ (mh : ℕ) (gc : String → Option ℚ) (nms : String → String)
      (decs : List BuyDecision) (s : AgentState),
      (∀ t ∈ (executeBuys mh gc nms decs s).buyTrades,
        BuyTradeOk s.totalAssets t) ∧
      ((executeBuys mh gc nms decs s).buyTrades ≠ [] →
        s.holdings.length < mh ∧ s.initialCapital * (5 / 100) ≤ s.cash) ∧
      (∀ (st : BuyLoopSt) (dec : BuyDecision),
        (buyStep s.tradeDate s.totalAssets gc nms st dec).buyTrades =
          st.buyTrades →
        (buyStep s.tradeDate s.totalAssets gc nms st dec).cash = st.cash ∧
        (buyStep s.tradeDate s.totalAssets gc nms st dec).holdings =
          st.holdings ∧
        (buyStep s.tradeDate s.totalAssets gc nms st dec).tradeHistory =
          st.tradeHistory) := by
  intro mh gc nms decs s
  refine ⟨?_, ?_, ?_⟩
  · intro t ht
    unfold executeBuys at ht
    split at ht
    · simp at ht
    split at ht
    · simp at ht
    · exact buyLoop_trades_ok s.tradeDate s.totalAssets gc nms decs _
        (by intro u hu; cases hu) t ht
  · intro hne
    unfold executeBuys at hne
    split at hne
    · simp at hne
    split at hne
    · simp at hne
    · rename_i h1 h2
      exact ⟨Nat.not_le.mp h1, not_lt.mp h2⟩
  · intro st dec hb
    rcases buyStep_spec s.tradeDate s.totalAssets gc nms st dec with
      ⟨hc, hh, hth, _⟩ | ⟨t, _, _, _, hb2⟩
    · exact ⟨hc, hh, hth⟩
    · rw [hb2] at hb
      exact absurd hb (by simp)





/-- C9 (amended): `_execute_buys` keeps cash nonnegative (its cash gate
checks `total_cost ≤ cash` before every executed buy), and
`_execute_sells` keeps cash nonnegative provided every holding's gross
value covers the fee floor (net income nonnegative); no
invariant-violation abort or rollback exists in either routine. -/
theorem c9_cash_nonneg :
    (∀ (mh : ℕ) (gc : String → Option ℚ) (nms : String → String)
       (decs : List BuyDecision) (s : AgentState),
       0 ≤ s.cash → 0 ≤ (executeBuys mh gc nms decs s).cash) ∧
    (∀ (nms : String → String) (decs : List SellDecision) (s : AgentState),
       0 ≤ s.cash →
       (∀ c h, lookupA s.holdings c = some h →
         5 ≤ (h.amount : ℚ) * h.currentPrice * (999 / 1000)) →
       0 ≤ (executeSells nms decs s).cash) := by
  constructor
  · intro mh gc nms decs s h
    unfold executeBuys
    split
    · exact h
    split
    · exact h
    · exact buyLoop_cash_nonneg s.tradeDate s.totalAssets gc nms decs _ h
  · intro nms decs s h hh
    unfold executeSells
    exact sellLoop_cash_nonneg s.tradeDate nms decs _ h hh



/-- C6 (amended): after `rollback_to_date(T)` no daily-asset entry and
no trade dated `≥ T` remains and holdings equal the chronological
replay of the surviving trades (merged buys, reducing sells); but cash
is not recomputed from the trade log: when entries survive it is the
last surviving entry's `total_assets` (falling back to
`initial_capital` when that stored value is 0) minus the replayed
holdings' market value, or that entry's recorded `cash` when the
difference is negative; when nothing survives it is
`initial_capital`. -/
theorem c6_rollback_replay :
    ∀ (T : Date) (p : Portfolio),
      (∀ e ∈ (rollbackToDate T p).dailyAssets, e.date.days < T.days) ∧
      (∀ t ∈ (rollbackToDate T p).tradeHistory, t.date.days < T.days) ∧
      ((rollbackToDate T p).dailyAssets ≠ [] →
        (rollbackToDate T p).holdings =
          replayTrades (sortTradesByDate (rollbackToDate T p).tradeHistory)) ∧
      ((rollbackToDate T p).dailyAssets = [] →
        (rollbackToDate T p).holdings = [] ∧
        (rollbackToDate T p).cash = p.initialCapital) ∧
      (∀ last, (rollbackToDate T p).dailyAssets.getLast? = some last →
        (rollbackToDate T p).cash =
          (if 0 ≤ (if last.totalAssets = 0 then p.initialCapital
                   else last.totalAssets) -
              rbHoldingsValue (rollbackToDate T p).holdings
           then (if last.totalAssets = 0 then p.initialCapital
                 else last.totalAssets) -
                rbHoldingsValue (rollbackToDate T p).holdings
           else last.cash)) := by
  intro T p
  simp only [rollbackToDate]
  split
  · rename_i last hlast
    refine ⟨?_, ?_, ?_, ?_, ?_⟩
    · intro e he
      have := List.mem_filter.mp he
      exact of_decide_eq_true this.2
    · intro t ht
      have := List.mem_filter.mp ht
      exact of_decide_eq_true this.2
    · intro _; rfl
    · intro h
      have h2 : (p.dailyAssets.filter fun e => e.date.days < T.days) = [] := h
      rw [h2] at hlast
      cases hlast
    · intro l hl
      have h2 : (p.dailyAssets.filter fun e => e.date.days < T.days).getLast? =
          some l := hl
      rw [hlast] at h2
      cases h2
      rfl
  · rename_i hlast
    refine ⟨?_, ?_, ?_, ?_, ?_⟩
    · intro e he; cases he
    · intro t ht
      have := List.mem_filter.mp ht
      exact of_decide_eq_true this.2
    · intro h; exact absurd rfl h
    · intro _; exact ⟨rfl, rfl⟩
    · intro l hl; cases hl

/-- C7 (amended): over a two-entry daily-assets sequence with valid
dates, positive assets and nonnegative cash (and an otherwise empty
account, so only the scan can fire), corruption is reported at the
later date exactly when, for a 1-day gap, the percent change is below
−12 or above +30 — a rise of, say, +20% is not flagged — and for any
gap of at least 2 days whenever |change| exceeds gap·10 (gaps above 3
days are always flagged). -/
theorem c7_asset_change_detection :
    (∀ (d1 d2 : Date) (a1 a2 c1 c2 : ℚ),
       d2.days - d1.days = 1 → 0 < a1 → 0 < a2 → 0 ≤ c1 → 0 ≤ c2 →
       (detectDataCorruption (mkScanP [mkDaily d1 a1 c1, mkDaily d2 a2 c2]) =
          (true, some d2) ↔
         ((a2 - a1) / a1 * 100 < -12 ∨ 30 < (a2 - a1) / a1 * 100))) ∧
    (∀ (d1 d2 : Date) (a1 a2 c1 c2 : ℚ) (g : ℤ),
       d2.days - d1.days = g → 2 ≤ g → 0 < a1 → 0 < a2 → 0 ≤ c1 → 0 ≤ c2 →
       (g : ℚ) * 10 < ratAbs ((a2 - a1) / a1 * 100) →
       detectDataCorruption (mkScanP [mkDaily d1 a1 c1, mkDaily d2 a2 c2]) =
         (true, some d2)) := by
  constructor
  · intro d1 d2 a1 a2 c1 c2 hdiff ha1 ha2 hc1 hc2
    have hlt : ¬ d2.days < d1.days := by omega
    have h1 : entryCorrupt none (mkDaily d1 a1 c1) = false := by
      simp [entryCorrupt, mkDaily, ha1.ne', not_lt.mpr ha1.le, not_lt.mpr hc1]
    have hflag : assetChangeFlag a1 1 a2 =
        (decide ((a2 - a1) / a1 * 100 < -12) ||
          decide (30 < (a2 - a1) / a1 * 100)) := by
      norm_num [assetChangeFlag, ha1]
    have h2 : entryCorrupt (some (d1, a1)) (mkDaily d2 a2 c2) =
        (decide ((a2 - a1) / a1 * 100 < -12) ||
          decide (30 < (a2 - a1) / a1 * 100)) := by
      simp [entryCorrupt, mkDaily, hlt, ha2.ne', not_lt.mpr ha2.le,
        not_lt.mpr hc2, hdiff, hflag]
    have h3 : lastEntryInconsistent
        (mkScanP [mkDaily d1 a1 c1, mkDaily d2 a2 c2]) = false := by
      simp [lastEntryInconsistent, mkScanP, rbHoldingsValue, mkDaily,
        show ¬ (100 : ℚ) < 0 + 0 by norm_num]
    by_cases hP : (a2 - a1) / a1 * 100 < -12 ∨ 30 < (a2 - a1) / a1 * 100
    · have hb : (decide ((a2 - a1) / a1 * 100 < -12) ||
          decide (30 < (a2 - a1) / a1 * 100)) = true := by
        rcases hP with h | h <;> simp [h]
      have hloop : detectLoop none [mkDaily d1 a1 c1, mkDaily d2 a2 c2] =
          some d2 := by
        simp [detectLoop, h1, h2, hb,
          show (mkDaily d1 a1 c1).date = d1 from rfl,
          show (mkDaily d1 a1 c1).totalAssets = a1 from rfl,
          show (mkDaily d2 a2 c2).date = d2 from rfl]
      simp [detectDataCorruption, mkScanP, hloop, hP]
    · have hb : (decide ((a2 - a1) / a1 * 100 < -12) ||
          decide (30 < (a2 - a1) / a1 * 100)) = false := by
        push_neg at hP
        simp [not_lt.mpr hP.1, not_lt.mpr hP.2]
      have hloop : detectLoop none [mkDaily d1 a1 c1, mkDaily d2 a2 c2] =
          none := by
        simp [detectLoop, h1, h2, hb,
          show (mkDaily d1 a1 c1).date = d1 from rfl,
          show (mkDaily d1 a1 c1).totalAssets = a1 from rfl]
      unfold mkScanP at h3
      simp [detectDataCorruption, mkScanP, hloop, h3,
        firstOrphanTradeDate, hP]
  · intro d1 d2 a1 a2 c1 c2 g hdiff hg ha1 ha2 hc1 hc2 habs
    have hlt : ¬ d2.days < d1.days := by omega
    have h1 : entryCorrupt none (mkDaily d1 a1 c1) = false := by
      simp [entryCorrupt, mkDaily, ha1.ne', not_lt.mpr ha1.le, not_lt.mpr hc1]
    have hflag : assetChangeFlag a1 g a2 = true := by
      unfold assetChangeFlag
      rw [if_pos ha1]
      by_cases h3 : 3 < g
      · simp [h3]
      · simp only [if_neg h3, if_neg (by omega : ¬ g = 1),
          if_pos (by omega : (1 : ℤ) < g)]
        simp [habs]
    have h2 : entryCorrupt (some (d1, a1)) (mkDaily d2 a2 c2) = true := by
      simp [entryCorrupt, mkDaily, hdiff, hflag]
    have hloop : detectLoop none [mkDaily d1 a1 c1, mkDaily d2 a2 c2] =
        some d2 := by
      simp [detectLoop, h1, h2,
        show (mkDaily d1 a1 c1).date = d1 from rfl,
        show (mkDaily d1 a1 c1).totalAssets = a1 from rfl,
        show (mkDaily d2 a2 c2).date = d2 from rfl]
    simp [detectDataCorruption, mkScanP, hloop]

section ConcreteEvaluations

-- Batteries marks the `Rat` arithmetic `@[irreducible]`, which blocks
-- `decide` on concrete rational computations; restore the default
-- reducibility for the closed evaluations below.
set_option allowUnsafeReducibility true
attribute [local semireducible] Rat.mul Rat.add Rat.sub Rat.inv Rat.ofScientific

/-- Witness for C1: the concrete T+1 scenario of the spec (buy today,
sell decision today) leaves the account untouched. -/
theorem c1_t_plus_one_witness :
    (sellStep ⟨2025, 1, 7⟩ fixNames fixSellLoopT0 fixSellDec).cash =
        fixSellLoopT0.cash ∧
      (sellStep ⟨2025, 1, 7⟩ fixNames fixSellLoopT0 fixSellDec).holdings =
        fixSellLoopT0.holdings ∧
      (sellStep ⟨2025, 1, 7⟩ fixNames fixSellLoopT0 fixSellDec).tradeHistory =
        fixSellLoopT0.tradeHistory ∧
      (sellStep ⟨2025, 1, 7⟩ fixNames fixSellLoopT0 fixSellDec).sellTrades =
        fixSellLoopT0.sellTrades :=
  c1_t_plus_one.1 ⟨2025, 1, 7⟩ fixNames fixSellLoopT0 fixSellDec
    fixHoldingT0 (by decide) (by decide)

/-- Witness for C2: spec scenario A's sell (200 shares, cost 10, close
11) pays 5 commission and 2.2 stamp tax and realizes 192.8 profit. -/
theorem c2_sell_fee_arithmetic_witness :
    ∃ t : Trade,
      (sellStep ⟨2025, 1, 7⟩ fixNames fixSellLoop fixSellDec).sellTrades =
        fixSellLoop.sellTrades ++ [t] ∧
      t.total = (fixHolding.amount : ℚ) * fixHolding.currentPrice ∧
      (sellStep ⟨2025, 1, 7⟩ fixNames fixSellLoop fixSellDec).cash =
        fixSellLoop.cash +
          ((fixHolding.amount : ℚ) * fixHolding.currentPrice -
            ratMax ((fixHolding.amount : ℚ) * fixHolding.currentPrice *
              (3 / 10000)) 5 -
            (fixHolding.amount : ℚ) * fixHolding.currentPrice * (1 / 1000)) ∧
      t.profit = some
        (((fixHolding.amount : ℚ) * fixHolding.currentPrice -
            ratMax ((fixHolding.amount : ℚ) * fixHolding.currentPrice *
              (3 / 10000)) 5 -
            (fixHolding.amount : ℚ) * fixHolding.currentPrice * (1 / 1000)) -
          fixHolding.cost * (fixHolding.amount : ℚ)) ∧
      t.profitPct = some
        ((((fixHolding.amount : ℚ) * fixHolding.currentPrice -
             ratMax ((fixHolding.amount : ℚ) * fixHolding.currentPrice *
               (3 / 10000)) 5 -
             (fixHolding.amount : ℚ) * fixHolding.currentPrice * (1 / 1000)) -
           fixHolding.cost * (fixHolding.amount : ℚ)) /
          (fixHolding.cost * (fixHolding.amount : ℚ)) * 100) :=
  c2_sell_fee_arithmetic ⟨2025, 1, 7⟩ fixNames fixSellLoop fixSellDec
    fixHolding (by decide) (by decide) (by decide) (by decide) (by decide)

/-- Witness for C10: on the 2200-yuan sell the stored commission field
is 5 + 2.2 = 7.2. -/
theorem c10_sell_commission_includes_stamp_witness :
    ∃ t : Trade,
      (sellStep ⟨2025, 1, 7⟩ fixNames fixSellLoop fixSellDec).sellTrades =
        fixSellLoop.sellTrades ++ [t] ∧
      t.total = (fixHolding.amount : ℚ) * fixHolding.currentPrice ∧
      t.commission = ratMax (t.total * (3 / 10000)) 5 + t.total * (1 / 1000) :=
  c10_sell_commission_includes_stamp ⟨2025, 1, 7⟩ fixNames fixSellLoop
    fixSellDec fixHolding (by decide) (by decide) (by decide) (by decide)
    (by decide)

/-- Witness for C4: a concrete batch with one executed buy. -/
theorem c4_buy_risk_gates_witness :
    fixBuyState.holdings.length < 5 ∧
      fixBuyState.initialCapital * (5 / 100) ≤ fixBuyState.cash :=
  (c4_buy_risk_gates 5 fixClose fixNames [fixBuyDecA] fixBuyState).2.1
    (by decide)

/-- Counterexample for C4 as stated: with `max_holdings = 1` a batch of
two decisions executes both buys (the holdings-count gate is not
re-evaluated when the second decision is processed), and a buy whose
total cost 405 exceeds the 95%-of-cash ceiling 384.75 executes
(the ceiling is computed but never enforced). -/
theorem c4_counterexample :
    (executeBuys 1 fixClose fixNames [fixBuyDecA] fixBuyState).holdings.length
        = 1 ∧
      (executeBuys 1 fixClose fixNames [fixBuyDecA, fixBuyDecB]
        fixBuyState).buyTrades.length = 2 ∧
      ((executeBuys 5 fixClose4 fixNames [fixBuyDec100]
          fixTightState).buyTrades.map fun t => t.total + t.commission) =
        [405] ∧
      fixTightState.cash * (95 / 100) < 405 := by
  decide

/-- C3: `_execute_buys` does not merge a repeated buy into the existing
holding; it overwrites it.  After buying 100 more shares at 20 of a
code already held as 100 shares at cost 10, the live holding records
100 shares at cost 20, while the repository's own trade-log replay
(`rollback_to_date`) yields the merged 200 shares at average cost 15. -/
theorem c3_buy_overwrites_holding :
    ((lookupA (executeBuys 5 fixClose20 fixNames [fixMergeDec]
        fixMergeState).holdings "000001.SZ").map
      fun h => (h.amount, h.cost)) = some (100, 20) ∧
    ((lookupA (replayTrades (sortTradesByDate
        (executeBuys 5 fixClose20 fixNames [fixMergeDec]
          fixMergeState).tradeHistory)) "000001.SZ").map
      fun h => (h.amount, h.price)) = some (200, 15) := by
  decide

/-- C8: the normalization in `_analyze_candidates` drops the LLM's
`exit_plan`, so the holding and the buy trade created from a decision
that carried a full exit plan store the `未设置` placeholders instead
of the plan's values. -/
theorem c8_exit_plan_dropped :
    ((normalizeBuyDecisions (30 / 100) [fixRawDec]).map
        fun d => d.exitPlan) = [none] ∧
      fixRawDec.exitPlan = some { profitTarget := "11.0", stopLoss := "9.5"
                                  invalidation := "跌破9.5" } ∧
      ((lookupA (executeBuys 5 fixClose fixNames
          (normalizeBuyDecisions (30 / 100) [fixRawDec])
          fixBuyState).holdings "000001.SZ").map
        fun h => (h.profitTarget, h.stopLoss, h.invalidation)) =
        some ("未设置", "未设置", "未设置") ∧
      ((executeBuys 5 fixClose fixNames
          (normalizeBuyDecisions (30 / 100) [fixRawDec])
          fixBuyState).buyTrades.map fun t => t.profitTarget) =
        [some "未设置"] := by
  decide

/-- Witness for C9: one concrete buy and one concrete sell, both
leaving cash nonnegative. -/
theorem c9_cash_nonneg_witness :
    0 ≤ (executeBuys 5 fixClose fixNames [fixBuyDecA] fixBuyState).cash ∧
      0 ≤ (executeSells fixNames [fixSellDec]
        { fixBuyState with cash := 7995
                           holdings := [("000001.SZ", fixHolding)] }).cash :=
  ⟨c9_cash_nonneg.1 5 fixClose fixNames [fixBuyDecA] fixBuyState (by decide),
   c9_cash_nonneg.2 fixNames [fixSellDec]
     { fixBuyState with cash := 7995
                        holdings := [("000001.SZ", fixHolding)] }
     (by decide)
     (by
       intro c h hl
       simp only [lookupA] at hl
       split at hl
       · cases hl; decide
       · cases hl)⟩

/-- Counterexample for C9 as stated: starting from nonnegative cash, a
gate-passing buy leaves cash exactly 0, and the next day's sell of the
crashed position adds a negative net income (4 gross minus 5 minimum
commission minus 0.004 stamp tax), leaving cash at −1.004 with no
abort or rollback. -/
theorem c9_counterexample :
    (0 : ℚ) ≤ fixTightState.cash ∧
      (executeBuys 5 fixClose4 fixNames [fixBuyDec100] fixTightState).cash
        = 0 ∧
      fixNegCashRun.cash = -(251 / 250) ∧
      fixNegCashRun.cash < 0 := by
  decide

/-- C5: the `pre_state` snapshot taken by `run_single_day` copies the
holdings dict with `dict(...)` — a shallow copy, despite the source
comment claiming a deep copy — so after a failed day is rolled back,
the outer attributes (map, cash, history) are restored but the holding
object mutated in place by `update_prices` keeps its new field values:
`hold_days` stays incremented at 4 and `current_price` stays at the new
close 10 instead of reverting to 3 and 9. -/
theorem c5_shallow_snapshot_leak :
    (runSingleDayCrashAfterUpdate fixClose10Only fixMem).holdingsMap =
        fixMem.holdingsMap ∧
      (runSingleDayCrashAfterUpdate fixClose10Only fixMem).cash =
        fixMem.cash ∧
      (runSingleDayCrashAfterUpdate fixClose10Only fixMem).tradeHistory =
        fixMem.tradeHistory ∧
      (runSingleDayCrashAfterUpdate fixClose10Only fixMem).dailyAssets =
        fixMem.dailyAssets ∧
      fixHeapHolding.holdDays = 3 ∧ fixHeapHolding.currentPrice = 9 ∧
      heapGet fixMem.heap 0 = some fixHeapHolding ∧
      heapGet (runSingleDayCrashAfterUpdate fixClose10Only fixMem).heap 0 =
        some { amount := 100, cost := 9, currentPrice := 10
               profitPct := 100 / 9, holdDays := 4 } := by
  decide

/-- Counterexample for C6 as stated: after rolling the fixture
portfolio back to 2025-01-04, the one buy trade (total 1000,
commission 5) survives, yet cash is 9000 (taken from the last daily
entry's 10000 total assets minus the 1000 replayed holding value), not
the trade-log recomputation `10000 − 1005 = 8995`. -/
theorem c6_cash_counterexample :
    (rollbackToDate fixRollbackT fixRollbackP).tradeHistory =
        [fixOldBuyTrade] ∧
      (rollbackToDate fixRollbackT fixRollbackP).dailyAssets =
        [fixDailyJan3] ∧
      (rollbackToDate fixRollbackT fixRollbackP).cash = 9000 ∧
      fixRollbackP.initialCapital -
          (fixOldBuyTrade.total + fixOldBuyTrade.commission) = 8995 ∧
      (9000 : ℚ) ≠ 8995 := by
  decide

/-- Witness for C6: the surviving buy trade of the fixture rollback is
indeed dated before the rollback target. -/
theorem c6_rollback_replay_witness :
    fixOldBuyTrade.date.days < fixRollbackT.days :=
  (c6_rollback_replay fixRollbackT fixRollbackP).2.1 fixOldBuyTrade
    (by decide)

/-- Counterexample for C7 as stated: a one-day +20% rise (outside the
claimed ±12% band) is not reported as corruption. -/
theorem c7_counterexample :
    detectDataCorruption (mkScanP [mkDaily ⟨2025, 1, 3⟩ 10000 10000,
        mkDaily ⟨2025, 1, 4⟩ 12000 12000]) = (false, none) ∧
      (Date.days ⟨2025, 1, 4⟩) - (Date.days ⟨2025, 1, 3⟩) = 1 ∧
      ((12000 : ℚ) - 10000) / 10000 * 100 = 20 ∧
      (12 : ℚ) < 20 := by
  decide

/-- Witness for C7: the spec's scenario E (one-day drop from 10050 to
5000, −50.2%) is flagged at the later date. -/
theorem c7_asset_change_detection_witness :
    detectDataCorruption (mkScanP [mkDaily ⟨2025, 1, 4⟩ 10050 10050,
        mkDaily ⟨2025, 1, 5⟩ 5000 5000]) = (true, some ⟨2025, 1, 5⟩) :=
  (c7_asset_change_detection.1 ⟨2025, 1, 4⟩ ⟨2025, 1, 5⟩ 10050 5000
      10050 5000 (by decide) (by decide) (by decide) (by decide)
      (by decide)).mpr (by decide)

end ConcreteEvaluations

end QuantArena
